import Mathlib

/-!
Shallow embedding of the mubsub channel implementation (lib/channel.js)
and verification of its specification claims.

The channel sits on top of a capped MongoDB collection: publishers insert
documents, and a tailable cursor streams inserted documents back to
subscribers registered on an event emitter.  We model documents, emitted
events, the cursor data/close/error handlers, the gated callbacks produced
by Channel.prototype.handle, the publish path, and the position-seeding
query of Channel.prototype.latest as pure Lean functions, and prove the
specification claims about them.
-/

namespace Mubsub

/-- A document in the capped collection.  MongoDB assigns each inserted
document a strictly increasing ObjectId; we model the identifier as a
natural number.  The `event` field is optional (documents written by other
writers may lack it) and the payload (`message` in the source) is opaque,
modelled as a natural number. -/
structure Doc where
  id : Nat
  event : Option String
  message : Nat
  deriving DecidableEq, Repr

/-- The argument passed along with an emitted event. -/
inductive Arg where
  | payload (p : Nat)
  | doc (d : Doc)
  | err (e : Nat)
  | coll
  | unit
  deriving DecidableEq, Repr

/-- One call of self.emit(name, arg) on the channel. -/
structure Emit where
  name : String
  arg : Arg
  deriving DecidableEq, Repr

/-- The cursor data handler, function next(doc) inside
Channel.prototype.listen.  A null document is ignored; otherwise the
tracked latest document is set to the received document, and we emit: the
named event with the payload and the generic message broadcast with the
payload (both only when the document has an event field), then the raw
document broadcast with the full document.  Returns the new tracked
document and the list of emits, in order. -/
def next (latest : Option Doc) (doc : Option Doc) : Option Doc × List Emit :=
  match doc with
  | none => (latest, [])
  | some d =>
    (some d,
      (match d.event with
       | some e => [⟨e, Arg.payload d.message⟩, ⟨"message", Arg.payload d.message⟩]
       | none => []) ++ [⟨"document", Arg.doc d⟩])

/-- Channel.prototype.subscribe argument normalization: when called with a
single function argument (no event name), the event defaults to the
generic broadcast name. -/
def subscribeEvent (event : Option String) : String := event.getD "message"

/-- C1: the claim asserts a record with no event field still triggers the
generic payload broadcast; in the code, the message broadcast is emitted
only inside the if (doc.event) branch, so a document without an event
field produces only the raw document broadcast. -/
theorem C1_counterexample :
    Emit.mk "message" (Arg.payload 42) ∉
      (next none (some ⟨1, none, 42⟩)).2 := by decide

/-- C1 amended: dispatching a received document emits the named event with
the payload and the generic message broadcast with the payload when the
document carries an event field, plus the raw document broadcast always; a
document with no event field triggers only the raw document broadcast. -/
theorem C1_dispatch (latest : Option Doc) (d : Doc) :
    (next latest (some d)).2 =
      (match d.event with
       | some e =>
         [⟨e, Arg.payload d.message⟩, ⟨"message", Arg.payload d.message⟩,
          ⟨"document", Arg.doc d⟩]
       | none => [⟨"document", Arg.doc d⟩]) := by
  cases h : d.event <;> simp [next, h]

/-- C10: subscribing with the event name omitted registers under the
generic broadcast name, which receives the payload of every document that
carries an event name and is never fired for documents without one. -/
theorem C10_subscribe_default (latest : Option Doc) (d : Doc) :
    subscribeEvent none = "message" ∧
    ((Emit.mk "message" (Arg.payload d.message) ∈ (next latest (some d)).2) ↔
      d.event.isSome) := by
  refine ⟨rfl, ?_⟩
  cases h : d.event <;> simp [next, h]

/-- The channel state visible to the handlers we model: the one-shot
closed flag set by Channel.prototype.close, the connection's destroyed
flag, the recreate option, whether this.listening holds a collection, and
the tracked latest document. -/
structure Ch where
  closed : Bool
  destroyed : Bool
  recreate : Bool
  listening : Bool
  latest : Option Doc
  deriving DecidableEq, Repr

/-- An event delivered by the tailable cursor stream. -/
inductive StreamEv where
  | data (d : Option Doc)
  | close
  | error (e : Nat)
  deriving DecidableEq, Repr

/-- A follow-up the cursor handlers request.  reconnect is connect() in
the close handler: re-query the latest document and reopen the cursor
through the handle() gate, reusing the current collection promise.
recreateListen is self.create().listen(latest) in the error handler:
install a fresh collection promise (the readiness gate) and reopen from
the tracked document. -/
inductive Action where
  | reconnect (latest : Option Doc)
  | recreateListen (latest : Option Doc)
  deriving DecidableEq, Repr

/-- What each follow-up action does when it runs: the tracked document the
reopened cursor resumes from, and whether a fresh collection promise is
installed first (create() before listen()). -/
def actionResume : Action → Option Doc × Bool
  | Action.reconnect l => (l, false)
  | Action.recreateListen l => (l, true)

/-- The three cursor handlers installed by openCursor in
Channel.prototype.listen, as one step function: a data event runs next; a
close event emits close and requests a reconnect from the tracked
document; an error event emits error and, when options.recreate is set,
requests create().listen(latest).  None of these handlers consults the
closed flag. -/
def streamStep (ch : Ch) (ev : StreamEv) : Ch × List Emit × Option Action :=
  match ev with
  | StreamEv.data d =>
    let r := next ch.latest d
    ({ ch with latest := r.1 }, r.2, none)
  | StreamEv.close =>
    (ch, [⟨"close", Arg.unit⟩], some (Action.reconnect ch.latest))
  | StreamEv.error e =>
    (ch, [⟨"error", Arg.err e⟩],
      if ch.recreate then some (Action.recreateListen ch.latest) else none)

/-- Channel.prototype.handle: wraps a callback so that it is a no-op when
the channel is closed or the connection destroyed; otherwise a leading
error argument is emitted as an error event, and the callback runs unless
an error occurred with exit set.  Returns the emits and whether the
wrapped callback was invoked. -/
def handleRun (closed destroyed exit : Bool) (err : Option Nat) :
    List Emit × Bool :=
  if closed || destroyed then ([], false)
  else
    match err with
    | some e => ([⟨"error", Arg.err e⟩], !exit)
    | none => ([], true)

/-- The outcome of openCursor in Channel.prototype.listen. -/
structure OpenResult where
  emits : List Emit
  listeningSet : Bool
  handlersInstalled : Bool
  retry : Option Action
  deriving DecidableEq, Repr

/-- openCursor: when collection.find(...).stream() throws synchronously,
the catch block emits the error and returns - no handlers are installed,
this.listening is not set, and no reconnection or re-provisioning is
requested.  On success the data/close/error handlers are installed,
this.listening is set to the collection, and ready is emitted. -/
def openCursorRun (openErr : Option Nat) : OpenResult :=
  match openErr with
  | some e => ⟨[⟨"error", Arg.err e⟩], false, false, none⟩
  | none => ⟨[⟨"ready", Arg.coll⟩], true, true, none⟩

/-- The selector of the tailable cursor opened by openCursor: with a
tracked latest document the cursor matches id strictly greater than its
id; with none it matches the whole collection. -/
def cursorSelector (latest : Option Doc) : Option Nat :=
  latest.map Doc.id

/-- The documents a cursor with the given selector delivers, out of a
collection in insertion order. -/
def streamDocs (sel : Option Nat) (coll : List Doc) : List Doc :=
  match sel with
  | none => coll
  | some g => coll.filter (fun d => g < d.id)

/-- Channel.prototype.latest: with no tracked document it reads the single
most recent document in natural (insertion) order - sort natural
descending, limit 1 - returning none when the collection is empty; with a
tracked document it re-reads the document with that id. -/
def latestDoc (tracked : Option Doc) (coll : List Doc) : Option Doc :=
  match tracked with
  | none => coll.getLast?
  | some d => coll.reverse.find? (fun x => x.id == d.id)

/-- The options passed to collection.insert by Channel.prototype.publish:
safe (write confirmation) exactly when a callback was supplied. -/
structure InsertOptions where
  safe : Bool
  deriving DecidableEq, Repr

/-- How Channel.prototype.ready disposes of a callback: invoked at once
with this.listening when a collection is listening, otherwise registered
once on the ready event and run when ready next fires. -/
inductive ReadyDisposition where
  | callNow
  | queuedOnce
  deriving DecidableEq, Repr

/-- Channel.prototype.ready. -/
def readyRun (listening : Bool) : ReadyDisposition :=
  if listening then ReadyDisposition.callNow else ReadyDisposition.queuedOnce

/-- The synchronous part of Channel.prototype.publish: the channel state
is untouched and returned (return this), insert options carry safe exactly
when a callback was supplied, and the insert request is routed through
ready. -/
def publish (ch : Ch) (hasCallback : Bool) : Ch × InsertOptions × ReadyDisposition :=
  (ch, ⟨hasCallback⟩, readyRun ch.listening)

/-- The document built by publish for collection.insert. -/
def insertDoc (nid : Nat) (event : String) (message : Nat) : Doc :=
  ⟨nid, some event, message⟩

/-- The insert completion handler inside publish: when a user callback was
supplied it receives the error, or null together with docs[0]; when the
callback was omitted it was replaced by noop, so nothing observable
happens and in particular no error event is emitted on the channel.
Returns the user-callback invocation (none when no user callback) and the
events emitted on the channel. -/
def insertHandler (hasCallback : Bool) (res : Except Nat (List Doc)) :
    Option (Option Nat × Option Doc) × List Emit :=
  if hasCallback then
    match res with
    | Except.error e => (some (some e, none), [])
    | Except.ok docs => (some (none, docs.head?), [])
  else (none, [])

/-- C2: the claim asserts every internally-triggered callback, stream
data/close/error handlers included, checks the closed flag first; but the
cursor data handler emits the document broadcast on a closed channel. -/
theorem C2_counterexample :
    (streamStep ⟨true, false, true, true, none⟩
      (StreamEv.data (some ⟨5, some "foo", 7⟩))).2.1 ≠ [] := by decide

/-- C2 amended: after close() sets the closed flag, every callback wrapped
by Channel.prototype.handle - in particular the collection-resolution
callback that would reopen a cursor and re-emit ready - is a no-op: it
emits nothing and never invokes the wrapped callback.  The raw cursor
data/close/error handlers do not consult the flag, so an in-flight stream
can still emit document, message, named, close and error events. -/
theorem C2_handle_gate (destroyed exit : Bool) (err : Option Nat) :
    handleRun true destroyed exit err = ([], false) := by
  simp [handleRun]

/-- C5: the cursor error handler emits an error event; when the channel is
configured to recreate it requests create().listen(latest) - a fresh
collection promise (readiness gate) followed by reopening the stream from
the tracked document - and when not configured to recreate it requests no
follow-up, so no further records are delivered by that stream. -/
theorem C5_stream_error (ch : Ch) (e : Nat) :
    (streamStep ch (StreamEv.error e)).2.1 = [⟨"error", Arg.err e⟩] ∧
    (streamStep ch (StreamEv.error e)).2.2 =
      (if ch.recreate then some (Action.recreateListen ch.latest) else none) ∧
    actionResume (Action.recreateListen ch.latest) = (ch.latest, true) := by
  exact ⟨rfl, rfl, rfl⟩

/-- C6: the claim names the graceful-termination event closed, after the
specification surface; the close handler emits the event named close. -/
theorem C6_counterexample :
    Emit.mk "closed" Arg.unit ∉
      (streamStep ⟨false, false, true, true, none⟩ StreamEv.close).2.1 := by
  decide

/-- C6 amended: on graceful stream termination the channel emits the close
lifecycle event (named close, where the specification surface says
closed), emits no error, and silently reconnects - reusing the current
collection promise - resuming from the last tracked document. -/
theorem C6_stream_close (ch : Ch) :
    (streamStep ch StreamEv.close).2.1 = [⟨"close", Arg.unit⟩] ∧
    (streamStep ch StreamEv.close).2.2 = some (Action.reconnect ch.latest) ∧
    actionResume (Action.reconnect ch.latest) = (ch.latest, false) := by
  exact ⟨rfl, rfl, rfl⟩

/-- C8: a synchronous failure while opening the tailable cursor emits an
error event and halts that open attempt: no stream handlers are installed,
this.listening is not set, and no reconnection or re-provisioning
follow-up is requested. -/
theorem C8_open_failure (e : Nat) :
    openCursorRun (some e) = ⟨[⟨"error", Arg.err e⟩], false, false, none⟩ := by
  rfl

/-- Witness for C2_handle_gate at concrete arguments. -/
theorem C2_handle_gate_witness :
    handleRun true false true (some 3) = ([], false) :=
  C2_handle_gate false true (some 3)

/-- Witness for C5_stream_error at a concrete channel and error. -/
theorem C5_stream_error_witness :
    (streamStep ⟨false, false, true, true, some ⟨2, none, 0⟩⟩
        (StreamEv.error 9)).2.1 = [⟨"error", Arg.err 9⟩] ∧
    (streamStep ⟨false, false, true, true, some ⟨2, none, 0⟩⟩
        (StreamEv.error 9)).2.2 =
      (if (true : Bool) then
        some (Action.recreateListen (some ⟨2, none, 0⟩)) else none) ∧
    actionResume (Action.recreateListen (some ⟨2, none, 0⟩)) =
      (some ⟨2, none, 0⟩, true) :=
  C5_stream_error ⟨false, false, true, true, some ⟨2, none, 0⟩⟩ 9

/-- The successive tracked documents as the data handler processes a list
of received documents. -/
def runPositions (latest : Option Doc) (docs : List Doc) : List (Option Doc) :=
  match docs with
  | [] => []
  | d :: rest =>
    (next latest (some d)).1 :: runPositions (next latest (some d)).1 rest

/-- Folding the data handler over a list of received documents: the final
tracked document and all events emitted, in order. -/
def runData (latest : Option Doc) (docs : List Doc) : Option Doc × List Emit :=
  match docs with
  | [] => (latest, [])
  | d :: rest =>
    let r := next latest (some d)
    let r2 := runData r.1 rest
    (r2.1, r.2 ++ r2.2)

/-- The raw-document broadcasts among a list of emits (the only emits
whose argument is a full document). -/
def docEmits (l : List Emit) : List Emit :=
  l.filter (fun em => match em.arg with | Arg.doc _ => true | _ => false)

theorem next_fst (l : Option Doc) (d : Doc) : (next l (some d)).1 = some d := rfl

theorem docEmits_append (a b : List Emit) :
    docEmits (a ++ b) = docEmits a ++ docEmits b := by
  simp [docEmits]

theorem docEmits_next (l : Option Doc) (d : Doc) :
    docEmits (next l (some d)).2 = [⟨"document", Arg.doc d⟩] := by
  cases h : d.event <;> simp [next, h, docEmits]

theorem runPositions_map (l : Option Doc) (docs : List Doc) :
    runPositions l docs = docs.map some := by
  induction docs generalizing l with
  | nil => rfl
  | cons d rest ih => simp [runPositions, next_fst, ih]

theorem runData_docEmits (l : Option Doc) (docs : List Doc) :
    docEmits (runData l docs).2 = docs.map (fun d => ⟨"document", Arg.doc d⟩) := by
  induction docs generalizing l with
  | nil => rfl
  | cons d rest ih =>
    simp [runData, docEmits_append, docEmits_next, next_fst, ih]

/-- C3: within one stream lifetime, the data handler advances the tracked
document exactly once per received document, to that document; the tracked
identifiers strictly increase along the run when the stream delivers
documents in increasing id order after the tracked one; the reopened
cursor matches exactly the documents with id strictly greater than the
tracked one; and the raw-document broadcasts are exactly one per received
document, in delivery order - no duplicate at or before the tracked
position and no skip. -/
theorem C3_position_invariant (p : Doc) (docs coll : List Doc)
    (hinc : List.Chain' (fun a b => a.id < b.id) (p :: docs)) :
    runPositions (some p) docs = docs.map some ∧
    List.Chain' (fun a b => a < b) (p.id :: docs.map Doc.id) ∧
    streamDocs (cursorSelector (some p)) coll =
      coll.filter (fun d => p.id < d.id) ∧
    docEmits (runData (some p) docs).2 =
      docs.map (fun d => ⟨"document", Arg.doc d⟩) := by
  refine ⟨runPositions_map _ _, ?_, rfl, runData_docEmits _ _⟩
  have : p.id :: docs.map Doc.id = (p :: docs).map Doc.id := by simp
  rw [this, List.chain'_map]
  exact hinc

/-- Witness for C3_position_invariant at a concrete stream. -/
theorem C3_position_invariant_witness :
    List.Chain' (fun a b => a.id < b.id)
      ([⟨1, none, 0⟩, ⟨2, some "a", 5⟩, ⟨4, none, 6⟩] : List Doc) ∧
    (runPositions (some ⟨1, none, 0⟩) [⟨2, some "a", 5⟩, ⟨4, none, 6⟩] =
      ([⟨2, some "a", 5⟩, ⟨4, none, 6⟩] : List Doc).map some ∧
    List.Chain' (fun a b => a < b)
      ((1 : Nat) :: ([⟨2, some "a", 5⟩, ⟨4, none, 6⟩] : List Doc).map Doc.id) ∧
    streamDocs (cursorSelector (some ⟨1, none, 0⟩)) [⟨1, none, 0⟩, ⟨3, none, 9⟩] =
      ([⟨1, none, 0⟩, ⟨3, none, 9⟩] : List Doc).filter (fun d => (1 : Nat) < d.id) ∧
    docEmits (runData (some ⟨1, none, 0⟩) [⟨2, some "a", 5⟩, ⟨4, none, 6⟩]).2 =
      ([⟨2, some "a", 5⟩, ⟨4, none, 6⟩] : List Doc).map
        (fun d => ⟨"document", Arg.doc d⟩)) :=
  ⟨by simp [List.chain'_cons],
   C3_position_invariant ⟨1, none, 0⟩ [⟨2, some "a", 5⟩, ⟨4, none, 6⟩]
     [⟨1, none, 0⟩, ⟨3, none, 9⟩] (by simp [List.chain'_cons])⟩

/-- C4: publish returns the channel synchronously and unchanged; the
insert request is queued once on the ready event exactly when no
collection is listening; the insert requests write confirmation exactly
when a callback was supplied; and a supplied callback is invoked with the
error, or with null and the written record carrying the inserted event and
payload. -/
theorem C4_publish (ch : Ch) (b : Bool) (nid m e : Nat) (ev : String) :
    (publish ch b).1 = ch ∧
    ((publish ch b).2.2 = ReadyDisposition.queuedOnce ↔ ch.listening = false) ∧
    (publish ch b).2.1.safe = b ∧
    insertHandler true (Except.ok [insertDoc nid ev m]) =
      (some (none, some ⟨nid, some ev, m⟩), []) ∧
    insertHandler true (Except.error e) = (some (some e, none), []) := by
  refine ⟨rfl, ?_, rfl, rfl, rfl⟩
  cases h : ch.listening <;> simp [publish, readyRun, h]

/-- C7: the claim asserts append errors of a callback-less publish are
surfaced via the channel error event; the insert completion handler with
the callback omitted emits nothing at all on an insert error. -/
theorem C7_counterexample :
    (insertHandler false (Except.error 3)).2 = [] := by decide

/-- C7 amended: with the callback omitted the append is fire-and-forget -
no write confirmation is requested - and an append error is silently
discarded: the noop callback receives it and no error event is emitted on
the channel. -/
theorem C7_fire_and_forget (ch : Ch) (e : Nat) (docs : List Doc) :
    (publish ch false).2.1.safe = false ∧
    insertHandler false (Except.error e) = (none, []) ∧
    insertHandler false (Except.ok docs) = (none, []) := by
  exact ⟨rfl, rfl, rfl⟩

theorem getLast_le_of_chain (l : List Doc) :
    ∀ x ∈ l, List.Chain' (fun a b => a.id < b.id) l →
      ∀ p, l.getLast? = some p → x.id ≤ p.id := by
  induction l with
  | nil =>
    intro x hx
    cases hx
  | cons d rest ih =>
    intro x hx hinc p hp
    cases rest with
    | nil =>
      have hx1 : x = d := by
        cases hx with
        | head => rfl
        | tail _ h => cases h
      have hp1 : d = p := by
        simp [List.getLast?_singleton] at hp
        exact hp
      rw [hx1, hp1]
    | cons d2 rest2 =>
      rw [List.getLast?_cons_cons] at hp
      have hstep : d.id < d2.id := (List.chain'_cons.mp hinc).1
      have htail := (List.chain'_cons.mp hinc).2
      cases hx with
      | head =>
        have h2 : d2.id ≤ p.id :=
          ih d2 (List.mem_cons_self d2 rest2) htail p hp
        omega
      | tail _ hx2 =>
        exact ih x hx2 htail p hp

theorem chain_head_lt (p : Doc) (l : List Doc)
    (h : List.Chain' (fun a b => a.id < b.id) (p :: l)) :
    ∀ x ∈ l, p.id < x.id := by
  induction l generalizing p with
  | nil =>
    intro x hx
    cases hx
  | cons d rest ih =>
    intro x hx
    have h1 : p.id < d.id := (List.chain'_cons.mp h).1
    rcases List.mem_cons.mp hx with hx | hx
    · subst hx
      exact h1
    · have h2 := ih d (List.chain'_cons.mp h).2 x hx
      omega

/-- C9: on the very first open the position is seeded by reading the
single most recent document in insertion order (none when the collection
is empty), and the first tailable cursor starts strictly after it: over
the seeded collection extended by later appends it delivers exactly the
later appends, and with an empty collection it delivers everything from
the beginning. -/
theorem C9_seed (coll extra : List Doc)
    (hinc : List.Chain' (fun a b => a.id < b.id) (coll ++ extra)) :
    latestDoc none coll = coll.getLast? ∧
    latestDoc none [] = none ∧
    streamDocs (cursorSelector (latestDoc none coll)) (coll ++ extra) =
      (if coll.isEmpty then coll ++ extra else extra) := by
  refine ⟨rfl, rfl, ?_⟩
  cases hc : coll.getLast? with
  | none =>
    have : coll = [] := List.getLast?_eq_none_iff.mp hc
    subst this
    simp [latestDoc, cursorSelector, streamDocs]
  | some p =>
    have hne : coll ≠ [] := by
      intro h
      subst h
      simp at hc
    have hemp : coll.isEmpty = false := by
      cases coll with
      | nil => exact absurd rfl hne
      | cons a l => rfl
    have h1 : coll.filter (fun d => p.id < d.id) = [] := by
      apply List.filter_eq_nil_iff.mpr
      intro x hx
      have := getLast_le_of_chain coll x hx (List.chain'_append.mp hinc).1 p hc
      simp only [decide_eq_true_eq]
      omega
    have h2 : extra.filter (fun d => p.id < d.id) = extra := by
      apply List.filter_eq_self.mpr
      intro x hx
      have hap := List.chain'_append.mp hinc
      have hext : List.Chain' (fun a b => a.id < b.id) (p :: extra) :=
        List.chain'_cons'.mpr
          ⟨fun y hy => hap.2.2 p (by simp [hc]) y hy, hap.2.1⟩
      have := chain_head_lt p extra hext x hx
      simp only [decide_eq_true_eq]
      omega
    have hsel : cursorSelector (latestDoc none coll) = some p.id := by
      simp [latestDoc, hc, cursorSelector]
    rw [hsel]
    simp [streamDocs, hemp, List.filter_append, h1, h2]

/-- Witness for C9_seed at a concrete collection. -/
theorem C9_seed_witness :
    List.Chain' (fun a b => a.id < b.id)
      (([⟨1, none, 0⟩, ⟨2, none, 1⟩] : List Doc) ++ [⟨5, some "x", 2⟩]) ∧
    (latestDoc none [⟨1, none, 0⟩, ⟨2, none, 1⟩] =
      ([⟨1, none, 0⟩, ⟨2, none, 1⟩] : List Doc).getLast? ∧
    latestDoc none [] = none ∧
    streamDocs (cursorSelector (latestDoc none [⟨1, none, 0⟩, ⟨2, none, 1⟩]))
        (([⟨1, none, 0⟩, ⟨2, none, 1⟩] : List Doc) ++ [⟨5, some "x", 2⟩]) =
      (if ([⟨1, none, 0⟩, ⟨2, none, 1⟩] : List Doc).isEmpty then
        ([⟨1, none, 0⟩, ⟨2, none, 1⟩] : List Doc) ++ [⟨5, some "x", 2⟩]
       else [⟨5, some "x", 2⟩])) :=
  ⟨by simp [List.chain'_cons],
   C9_seed [⟨1, none, 0⟩, ⟨2, none, 1⟩] [⟨5, some "x", 2⟩]
     (by simp [List.chain'_cons])⟩

end Mubsub
